import Mathlib

/-!
Shallow embedding of the PDFConvert-FireflyCSV repository
(src/converter.py and src/api_server.py).

Modelling conventions:
* A PDF table cell (as produced by the table-extraction library and by
  pandas) is `Cell`: a string, Python `None`, or the pandas `NaN` filler
  used for short rows.  `pyStr`, `truthy` and `isNA` mirror Python
  `str()`, truthiness and `pd.isna`.
* Python `float` amounts are modelled exactly: every amount produced by
  the converter is parsed from a decimal digit string, so an amount is a
  canonical pair `num / 10 ^ scale` (`Amount`, built by `mkAmount`,
  which strips trailing zeros the way the shortest-round-trip `str` of
  such a float does).
* A Python function that can raise is modelled with `PyResult` (or
  `Option` for `parse_amount`, where `none` stands for the
  `ValueError` that `float()` raises on a run such as `"1.2.3"`).
* Strings are processed as `List Char`; `\d` of the regular expression
  `[\d.]+` is modelled as an ASCII digit.
-/

namespace PDFConvert

/-- Exact decimal amount `num / 10 ^ scale`, canonical form (when
`scale > 0` the numerator is not divisible by 10). -/
structure Amount where
  num : Nat
  scale : Nat
deriving DecidableEq, Repr

/-- Builds the canonical `Amount` for `n / 10 ^ s`. -/
def mkAmount : Nat → Nat → Amount
  | n, 0 => ⟨n, 0⟩
  | n, s+1 => if n % 10 = 0 then mkAmount (n / 10) s else ⟨n, s+1⟩

/-- A raw table cell: a string, Python `None` (pdfplumber empty cell),
or the pandas `NaN` used to fill missing trailing columns. -/
inductive Cell where
  | str : String → Cell
  | null : Cell
  | nan : Cell
deriving DecidableEq, Repr

/-- Python `str()` applied to a cell value. -/
def pyStr : Cell → String
  | Cell.str s => s
  | Cell.null => "None"
  | Cell.nan => "nan"

/-- Python truthiness of a cell value (`NaN` is truthy, `None` falsy,
a string is truthy iff non-empty). -/
def truthy : Cell → Bool
  | Cell.str s => !(s == "")
  | Cell.null => false
  | Cell.nan => true

/-- Whether `pd.isna` holds of a cell value. -/
def isNA : Cell → Bool
  | Cell.str _ => false
  | Cell.null => true
  | Cell.nan => true

/-- Characters removed from both ends by Python `str.strip()`. -/
def pyIsSpace (c : Char) : Bool :=
  c == ' ' || c == '\t' || c == '\n' || c == '\r' || c == '\x0b' || c == '\x0c'

/-- Python `str.strip()` on a character list. -/
def pyStripL (l : List Char) : List Char :=
  ((l.dropWhile pyIsSpace).reverse.dropWhile pyIsSpace).reverse

/-- Python `str.strip()` on a string. -/
def stripStr (s : String) : String := (pyStripL s.toList).asString

/-- Characters removed by the `.replace` chain of `parse_amount`
(dollar sign, Baht sign, comma). -/
def isCurrencyChar (c : Char) : Bool := c == '$' || c == '฿' || c == ','

/-- The `.replace` chain of `parse_amount`. -/
def removeCurrency (l : List Char) : List Char :=
  l.filter (fun c => !isCurrencyChar c)

/-- Character class of the regular expression `[\d.]+` (ASCII). -/
def isAmtChar (c : Char) : Bool := c.isDigit || c == '.'

/-- re.search of `[\d.]+`: the first maximal run of digits and dots,
`none` when no such character occurs. -/
def firstRun (l : List Char) : Option (List Char) :=
  match l.dropWhile (fun c => !isAmtChar c) with
  | [] => none
  | c :: t => some (List.takeWhile isAmtChar (c :: t))

/-- Value of a digit string. -/
def digitsVal (l : List Char) : Nat :=
  l.foldl (fun a c => 10 * a + (c.toNat - 48)) 0

/-- Python `float()` applied to a run matched by `[\d.]+`: succeeds iff
the run has at least one digit and at most one dot; `none` models the
`ValueError` raised otherwise. -/
def parseDecimal (run : List Char) : Option Amount :=
  if run.all isAmtChar && run.any (fun c => c.isDigit) && decide (run.count '.' ≤ 1) then
    some (mkAmount
      (digitsVal (run.takeWhile (fun c => !(c == '.')) ++ (run.dropWhile (fun c => !(c == '.'))).drop 1))
      ((run.dropWhile (fun c => !(c == '.'))).drop 1).length)
  else none

/-- Python substring test `pat in l`. -/
def containsSub (pat : List Char) : List Char → Bool
  | [] => pat.isPrefixOf ([] : List Char)
  | c :: t => pat.isPrefixOf (c :: t) || containsSub pat t

/-- Python `str.lower()` (ASCII). -/
def lowerL (l : List Char) : List Char := l.map Char.toLower

/-- Python `str.startswith` for a single-character pattern. -/
def startsWithChar (c : Char) : List Char → Bool
  | [] => false
  | x :: _ => x == c

/-- Keyword scanned for by the withdrawal branch of `parse_amount`. -/
def kwWithdrawal : List Char := ['w', 'i', 't', 'h', 'd', 'r', 'a', 'w', 'a', 'l']

/-- Keyword scanned for by the deposit branch of `parse_amount`. -/
def kwDeposit : List Char := ['d', 'e', 'p', 'o', 's', 'i', 't']

/-- Embedding of `BankStatementConverter.parse_amount`.  Outer `none`
models the uncaught `ValueError` of `float()`; otherwise the result is
the returned `(withdrawal, deposit)` pair. -/
def parse_amount (v : Cell) : Option (Option Amount × Option Amount) :=
  match v with
  | Cell.null => some (none, none)
  | Cell.nan => some (none, none)
  | Cell.str s =>
    if s = "" then some (none, none)
    else
      let value := removeCurrency (pyStripL s.toList)
      match firstRun value with
      | none => some (none, none)
      | some run =>
        match parseDecimal run with
        | none => none
        | some amount =>
          let lower := lowerL value
          if containsSub ['d', 'r'] lower || containsSub kwWithdrawal lower
              || startsWithChar '-' value then
            some (some amount, none)
          else if containsSub ['c', 'r'] lower || containsSub kwDeposit lower
              || startsWithChar '+' value then
            some (none, some amount)
          else
            some (none, some amount)

/-- Result of a Python computation that may raise (the string is the
exception message). -/
inductive PyResult (α : Type) where
  | ok : α → PyResult α
  | exn : String → PyResult α
deriving DecidableEq, Repr

/-- One output record of `clean_and_transform`; `none` in
`Withdrawal`/`Deposit` is the empty-string field of the CSV. -/
structure OutputTransaction where
  Date : String
  Description : String
  Withdrawal : Option Amount
  Deposit : Option Amount
  Category : String
  Notes : String
deriving DecidableEq, Repr

/-- Python `withdrawal if withdrawal else ''`: a `0.0` amount is falsy
and collapses to the empty field. -/
def truthyAmt : Option Amount → Option Amount
  | none => none
  | some a => if a.num = 0 then none else some a

/-- pandas `row.get(name, dflt)`: lookup by header name (first matching
column); a missing trailing cell is the `NaN` filler. -/
def getCell (headers row : List Cell) (name dflt : Cell) : Cell :=
  match headers.indexOf? name with
  | none => dflt
  | some i => row.getD i Cell.nan

/-- The body of the per-row loop of `clean_and_transform`:
`ok none` means the row was skipped, `ok (some t)` that `t` was
appended to `processed_data`, `exn` that `parse_amount` raised. -/
def processRow (headers row : List Cell) : PyResult (Option OutputTransaction) :=
  let date_val := getCell headers row (Cell.str "Date") (Cell.str "")
  let time_val := getCell headers row (Cell.str "Time/Eff.Date") (Cell.str "")
  let date_str := if truthy date_val then stripStr (pyStr date_val) else ""
  let description := stripStr (pyStr (getCell headers row (Cell.str "Descriptions") (Cell.str "")))
  match parse_amount (getCell headers row (Cell.str "Withdrawal / Deposit") (Cell.str "")) with
  | none => PyResult.exn "could not convert string to float"
  | some (withdrawal, deposit) =>
    let channel := stripStr (pyStr (getCell headers row (Cell.str "Channel") (Cell.str "")))
    let details := stripStr (pyStr (getCell headers row (Cell.str "Details") (Cell.str "")))
    let full_description :=
      if description ≠ "" ∧ details ≠ "" then description ++ " - " ++ details
      else if description ≠ "" then description else details
    if withdrawal = none ∧ deposit = none then PyResult.ok none
    else PyResult.ok (some
      { Date := date_str
        Description := full_description
        Withdrawal := truthyAmt withdrawal
        Deposit := truthyAmt deposit
        Category := channel
        Notes := if truthy time_val then "Time/Eff.Date: " ++ pyStr time_val else "" })

/-- The `for idx, row in df.iterrows()` loop of `clean_and_transform`. -/
def runRows (headers : List Cell) : List (List Cell) → PyResult (List OutputTransaction)
  | [] => PyResult.ok []
  | r :: rs =>
    match processRow headers r with
    | PyResult.exn e => PyResult.exn e
    | PyResult.ok none => runRows headers rs
    | PyResult.ok (some t) =>
      match runRows headers rs with
      | PyResult.exn e => PyResult.exn e
      | PyResult.ok ts => PyResult.ok (t :: ts)

/-- Embedding of `BankStatementConverter.clean_and_transform`.  The
first raw row is the header row; `pd.DataFrame` raises when a data row
is longer than the header row; `dropna(how='all')` removes rows whose
cells are all NA. -/
def clean_and_transform (raw : List (List Cell)) : PyResult (List OutputTransaction) :=
  match raw with
  | [] => PyResult.exn "No data extracted from PDF"
  | headers :: data_rows =>
    if data_rows.any (fun r => decide (headers.length < r.length)) then
      PyResult.exn "columns passed, passed data had more columns"
    else
      runRows headers (data_rows.filter (fun r => !r.all isNA))

/-- Python `str()` of a float that was parsed from a decimal digit
string: the canonical decimal with no trailing fractional zeros and at
least one digit on each side of the point. -/
def renderFloat (a : Amount) : String :=
  if a.scale = 0 then (Nat.toDigits 10 a.num).asString ++ ".0"
  else
    let ds := Nat.toDigits 10 a.num
    let padded := List.replicate (a.scale + 1 - ds.length) '0' ++ ds
    (padded.take (padded.length - a.scale)).asString ++ "."
      ++ (padded.drop (padded.length - a.scale)).asString

/-- CSV rendering of a Withdrawal/Deposit field (empty for unset). -/
def renderAmount : Option Amount → String
  | none => ""
  | some a => renderFloat a

/-- The fixed CSV header written by `df.to_csv`. -/
def csvHeader : List String :=
  ["Date", "Description", "Withdrawal", "Deposit", "Category", "Notes"]

/-- CSV serialization of one transaction (field list of one row of
`df.to_csv`). -/
def toCsvRow (t : OutputTransaction) : List String :=
  [t.Date, t.Description, renderAmount t.Withdrawal, renderAmount t.Deposit,
   t.Category, t.Notes]

/-- Embedding of `BankStatementConverter.convert`, applied to the raw
rows the table extractor produced.  `ok` carries the rows of the CSV
file that is written; `exn` means the exception propagated and no CSV
was written.  An empty transaction list gives an empty (headerless)
CSV, as `pd.DataFrame([]).to_csv` does. -/
def convert (raw : List (List Cell)) : PyResult (List (List String)) :=
  if raw.isEmpty then PyResult.exn "No tables found in PDF"
  else
    match clean_and_transform raw with
    | PyResult.exn e => PyResult.exn e
    | PyResult.ok ts =>
      PyResult.ok (if ts.isEmpty then [] else csvHeader :: ts.map toCsvRow)

/-- HTTP response of the API model. -/
structure HttpResponse where
  status : Nat
  detail : String
deriving DecidableEq, Repr

/-- Python `str.endswith`. -/
def strEndsWith (s suf : String) : Bool := suf.toList.isSuffixOf s.toList

/-- Embedding of the `POST /convert` handler of `src/api_server.py`.
The conversion that the handler would run on the uploaded bytes is
passed as a parameter: the handler rejects a non-`.pdf` filename with
a 400 response before looking at it, returns the CSV on success, and
maps any conversion exception to a 500 response. -/
def convert_pdf (filename : String) (conversion : PyResult (List (List String))) : HttpResponse :=
  if !strEndsWith filename ".pdf" then
    { status := 400, detail := "Only PDF files are accepted" }
  else
    match conversion with
    | PyResult.ok _ => { status := 200, detail := "" }
    | PyResult.exn e => { status := 500, detail := "Conversion failed: " ++ e }

/-- Unsigned numeric text: ASCII digits and at most one decimal point,
at least one digit (the inputs of the default-to-deposit clause, such
as "100.50"). -/
def isNumericText (s : String) : Bool :=
  s.toList.all isAmtChar && s.toList.any (fun c => c.isDigit)
    && decide (s.toList.count '.' ≤ 1)

/-- Tests whether the pair returned by `parse_amount` has both the
withdrawal and the deposit component set. -/
def bothSet : Option (Option Amount × Option Amount) → Bool
  | some (some _, some _) => true
  | _ => false

/-- Tests whether an optional amount is set and equal to zero. -/
def isZeroAmt : Option Amount → Bool
  | some a => a.num == 0
  | none => false

/-! ### Helper lemmas about the list and character primitives -/

theorem dropWhile_nil_of_all {p : Char → Bool} (l : List Char)
    (h : ∀ c ∈ l, p c = true) : List.dropWhile p l = [] := by
  induction l with
  | nil => rfl
  | cons a t ih =>
    rw [List.dropWhile_cons_of_pos (h a (List.mem_cons_self a t))]
    exact ih fun c hc => h c (List.mem_cons_of_mem a hc)

theorem dropWhile_self_of_none {p : Char → Bool} (l : List Char)
    (h : ∀ c ∈ l, p c = false) : List.dropWhile p l = l := by
  cases l with
  | nil => rfl
  | cons a t =>
    exact List.dropWhile_cons_of_neg (by simp [h a (List.mem_cons_self a t)])

theorem takeWhile_self_of_all {p : Char → Bool} (l : List Char)
    (h : ∀ c ∈ l, p c = true) : List.takeWhile p l = l := by
  induction l with
  | nil => rfl
  | cons a t ih =>
    rw [List.takeWhile_cons_of_pos (h a (List.mem_cons_self a t)),
      ih fun c hc => h c (List.mem_cons_of_mem a hc)]

theorem mem_of_dropWhile {p : Char → Bool} {c : Char} {l : List Char}
    (h : c ∈ List.dropWhile p l) : c ∈ l := by
  induction l with
  | nil => exact absurd h (by simp)
  | cons a t ih =>
    rw [List.dropWhile_cons] at h
    by_cases hpa : p a = true
    · rw [if_pos hpa] at h
      exact List.mem_cons_of_mem a (ih h)
    · rw [if_neg hpa] at h
      exact h

theorem mem_of_pyStripL {c : Char} {l : List Char} (h : c ∈ pyStripL l) : c ∈ l := by
  unfold pyStripL at h
  rw [List.mem_reverse] at h
  have h2 := mem_of_dropWhile h
  rw [List.mem_reverse] at h2
  exact mem_of_dropWhile h2

theorem mem_of_value {c : Char} {l : List Char}
    (h : c ∈ removeCurrency (pyStripL l)) : c ∈ l := by
  unfold removeCurrency at h
  exact mem_of_pyStripL (List.mem_filter.mp h).1

theorem pyStripL_eq_self {l : List Char} (h : ∀ c ∈ l, pyIsSpace c = false) :
    pyStripL l = l := by
  unfold pyStripL
  rw [dropWhile_self_of_none l h,
    dropWhile_self_of_none l.reverse (fun c hc => h c (List.mem_reverse.mp hc)),
    List.reverse_reverse]

theorem removeCurrency_eq_self {l : List Char} (h : ∀ c ∈ l, isCurrencyChar c = false) :
    removeCurrency l = l :=
  List.filter_eq_self.mpr fun a ha => by simp [h a ha]

theorem firstRun_all {l : List Char} (hne : l ≠ [])
    (h : ∀ c ∈ l, isAmtChar c = true) : firstRun l = some l := by
  cases l with
  | nil => exact absurd rfl hne
  | cons a t =>
    have ha : isAmtChar a = true := h a (List.mem_cons_self a t)
    unfold firstRun
    rw [List.dropWhile_cons_of_neg (by simp [ha])]
    show some (List.takeWhile isAmtChar (a :: t)) = some (a :: t)
    rw [takeWhile_self_of_all (a :: t) h]

theorem firstRun_none {l : List Char}
    (h : ∀ c ∈ l, isAmtChar c = false) : firstRun l = none := by
  unfold firstRun
  rw [dropWhile_nil_of_all l (fun c hc => by simp [h c hc])]

theorem dropWhile_ne_nil {p : Char → Bool} {l : List Char} {c : Char}
    (hc : c ∈ l) (hpc : p c = false) : List.dropWhile p l ≠ [] := by
  induction l with
  | nil => simp at hc
  | cons a t ih =>
    rw [List.dropWhile_cons]
    by_cases hpa : p a = true
    · rw [if_pos hpa]
      rcases List.mem_cons.mp hc with rfl | hct
      · rw [hpa] at hpc; cases hpc
      · exact ih hct
    · rw [if_neg hpa]
      simp

theorem firstRun_isSome_of_digit {l : List Char} {c : Char} (hc : c ∈ l)
    (hd : c.isDigit = true) : ∃ run, firstRun l = some run := by
  have hne : List.dropWhile (fun x => !isAmtChar x) l ≠ [] :=
    dropWhile_ne_nil hc (by simp [isAmtChar, hd])
  unfold firstRun
  cases hdw : List.dropWhile (fun x => !isAmtChar x) l with
  | nil => exact absurd hdw hne
  | cons a t => exact ⟨List.takeWhile isAmtChar (a :: t), rfl⟩

theorem containsSub_true_iff (pat l : List Char) :
    containsSub pat l = true ↔ pat <:+: l := by
  induction l with
  | nil => simp [containsSub, List.isPrefixOf_iff_prefix]
  | cons a t ih =>
    simp [containsSub, List.isPrefixOf_iff_prefix, ih, List.infix_cons_iff]

theorem dr_infix_kwWithdrawal : ['d', 'r'] <:+: kwWithdrawal :=
  ⟨['w', 'i', 't', 'h'], ['a', 'w', 'a', 'l'], rfl⟩

theorem containsSub_kwWithdrawal_false {l : List Char}
    (h : containsSub ['d', 'r'] l = false) : containsSub kwWithdrawal l = false := by
  by_contra hkw
  have hkw2 : containsSub kwWithdrawal l = true := by
    revert hkw; cases containsSub kwWithdrawal l <;> simp
  have : ['d', 'r'] <:+: l :=
    List.IsInfix.trans dr_infix_kwWithdrawal ((containsSub_true_iff _ _).mp hkw2)
  rw [(containsSub_true_iff _ _).mpr this] at h
  cases h

theorem toLower_lt65 {c : Char} (h : c.toNat < 65) : c.toLower = c := by
  have h2 : ¬(c.toNat ≥ 65 ∧ c.toNat ≤ 90) := by omega
  simp [Char.toLower, h2]

theorem amtChar_toNat_lt {c : Char} (h : isAmtChar c = true) : c.toNat < 65 := by
  simp only [isAmtChar, Bool.or_eq_true, beq_iff_eq] at h
  rcases h with hd | rfl
  · simp only [Char.isDigit, Bool.and_eq_true, decide_eq_true_eq] at hd
    exact Nat.lt_of_le_of_lt hd.2 (by decide)
  · decide

theorem toLower_amtChar {c : Char} (h : isAmtChar c = true) : c.toLower = c :=
  toLower_lt65 (amtChar_toNat_lt h)

theorem lowerL_amtChar {l : List Char} (h : ∀ c ∈ l, isAmtChar c = true) :
    lowerL l = l := by
  unfold lowerL
  rw [List.map_congr_left (fun c hc => toLower_amtChar (h c hc))]
  simp

theorem containsSub_false_of_head {pat l : List Char} {x : Char} (hx : pat = x :: pat.tail)
    (h : ∀ c ∈ l, isAmtChar c = true) (hxa : isAmtChar x = false) :
    containsSub pat l = false := by
  by_contra hc
  have hc2 : containsSub pat l = true := by
    revert hc; cases containsSub pat l <;> simp
  have hsub : pat ⊆ l := List.IsInfix.subset ((containsSub_true_iff _ _).mp hc2)
  have hmem : x ∈ l := hsub (hx ▸ List.mem_cons_self x pat.tail)
  rw [h x hmem] at hxa
  cases hxa

theorem startsWithChar_false {l : List Char} {x : Char}
    (h : ∀ c ∈ l, isAmtChar c = true) (hxa : isAmtChar x = false) :
    startsWithChar x l = false := by
  cases l with
  | nil => rfl
  | cons a t =>
    have ha := h a (List.mem_cons_self a t)
    show (a == x) = false
    by_contra hb
    have hbt : (a == x) = true := by revert hb; cases (a == x) <;> simp
    rw [beq_iff_eq.mp hbt, hxa] at ha
    cases ha

theorem amtChar_not_space {c : Char} (h : isAmtChar c = true) : pyIsSpace c = false := by
  by_contra hb
  have hbt : pyIsSpace c = true := by revert hb; cases pyIsSpace c <;> simp
  simp only [pyIsSpace, Bool.or_eq_true, beq_iff_eq] at hbt
  rcases hbt with ((((rfl | rfl) | rfl) | rfl) | rfl) | rfl <;> exact absurd h (by decide)

theorem amtChar_not_currency {c : Char} (h : isAmtChar c = true) : isCurrencyChar c = false := by
  by_contra hb
  have hbt : isCurrencyChar c = true := by revert hb; cases isCurrencyChar c <;> simp
  simp only [isCurrencyChar, Bool.or_eq_true, beq_iff_eq] at hbt
  rcases hbt with (rfl | rfl) | rfl <;> exact absurd h (by decide)

theorem bothSet_parse_amount (v : Cell) : bothSet (parse_amount v) = false := by
  cases v with
  | null => rfl
  | nan => rfl
  | str s =>
    simp only [parse_amount]
    split
    · rfl
    · split
      · rfl
      · split
        · rfl
        · split
          · rfl
          · split
            · rfl
            · rfl

/-! ### Claims -/

/-- C1 counterexample: the raw rows with header "Withdrawal / Deposit"
and the single data cell "0" make `clean_and_transform` emit a record
whose Withdrawal and Deposit fields are both empty (Python
`withdrawal if withdrawal else ''` collapses the parsed amount `0.0`
to the empty string), refuting the claim that a record with both
fields empty never appears. -/
theorem C1_counterexample :
    clean_and_transform [[Cell.str "Withdrawal / Deposit"], [Cell.str "0"]]
      = PyResult.ok [{ Date := "", Description := "", Withdrawal := none, Deposit := none,
                       Category := "", Notes := "" }] := by decide

/-- C3 counterexample: the input "CR" contains the substring "CR", yet
`parse_amount` returns `(none, none)` — the deposit is not set — because
the cell has no digits, refuting the claim that every input containing
"CR" yields a set deposit. -/
theorem C3_counterexample :
    containsSub ['c', 'r'] (lowerL (("CR" : String).toList)) = true ∧
      parse_amount (Cell.str "CR") = some (none, none) := by decide

/-- C4 counterexample: the input "." contains no digits, but
`parse_amount` raises (`float(".")` is a `ValueError`, modelled by the
outer `none`) instead of returning `(none, none)`, because the pattern
`[\d.]+` matches the lone dot. -/
theorem C4_counterexample :
    (("." : String).toList.all (fun c => !c.isDigit)) = true ∧
      parse_amount (Cell.str ".") = none := by decide

/-- C5: the two-row input of the spec example produces exactly the one
output record of the spec example (`45.00` parses to the amount 45,
rendered `45.0` in the CSV; `Deposit := none` is the empty field). -/
theorem C5_example :
    clean_and_transform
        [[Cell.str "Date", Cell.str "Descriptions", Cell.str "Withdrawal / Deposit",
          Cell.str "Channel", Cell.str "Details"],
         [Cell.str "2024-01-05", Cell.str "Grocery", Cell.str "DR 45.00",
          Cell.str "POS", Cell.str "Store A"]]
      = PyResult.ok [{ Date := "2024-01-05", Description := "Grocery - Store A",
                       Withdrawal := some ⟨45, 0⟩, Deposit := none,
                       Category := "POS", Notes := "" }] := by decide

/-- C6: when table extraction yields the empty sequence of raw rows,
`convert` fails with exactly the message "No tables found in PDF"; the
`exn` result carries no CSV rows, so no output file is written. -/
theorem C6_no_tables : convert [] = PyResult.exn "No tables found in PDF" := by decide

/-- C7: a transaction whose withdrawal is the amount parsed from
"50.00" (the value 50.00) and whose deposit is empty serializes to a
CSV row whose Withdrawal field carries that value (Python renders the
float 50.00 as "50.0") and whose Deposit field is the empty string. -/
theorem C7_serialization :
    mkAmount 5000 2 = ⟨50, 0⟩ ∧
      toCsvRow { Date := "2024-01-10", Description := "Coffee",
                 Withdrawal := some (mkAmount 5000 2), Deposit := none,
                 Category := "Cafe", Notes := "" }
        = ["2024-01-10", "Coffee", "50.0", "", "Cafe", ""] := by decide

/-- C9: for every filename not ending in ".pdf" the handler answers
HTTP 400, whatever the outcome of the conversion would be — the
response does not depend on the `conversion` argument, so no
conversion work is needed to produce it. -/
theorem C9_non_pdf_rejected (filename : String) (conversion : PyResult (List (List String)))
    (h : strEndsWith filename ".pdf" = false) :
    convert_pdf filename conversion
      = { status := 400, detail := "Only PDF files are accepted" } := by
  simp [convert_pdf, h]

/-- C9 witness: uploading "statement.txt" is rejected with 400. -/
theorem C9_witness :
    strEndsWith "statement.txt" ".pdf" = false ∧
      convert_pdf "statement.txt" (PyResult.ok [])
        = { status := 400, detail := "Only PDF files are accepted" } :=
  ⟨by decide, C9_non_pdf_rejected "statement.txt" (PyResult.ok []) (by decide)⟩

/-- C10: on every input cell, `parse_amount` never returns a pair with
both the withdrawal and the deposit set. -/
theorem C10_never_both (v : Cell) : bothSet (parse_amount v) = false :=
  bothSet_parse_amount v

/-- C1 amended: an emitted record's Withdrawal and Deposit fields are
both empty exactly when the single amount the classifier set for the
row equals zero; in particular every emitted record whose classified
amount is nonzero has at least one non-empty field.  Stated on
`processRow`, the loop body through which `clean_and_transform` emits
every record. -/
theorem C1_both_empty_iff_zero (headers row : List Cell) (t : OutputTransaction)
    (w d : Option Amount)
    (hp : parse_amount (getCell headers row (Cell.str "Withdrawal / Deposit") (Cell.str ""))
      = some (w, d))
    (he : processRow headers row = PyResult.ok (some t)) :
    (t.Withdrawal = none ∧ t.Deposit = none) ↔ (isZeroAmt w || isZeroAmt d) = true := by
  have hshape : bothSet (some (w, d)) = false := by
    rw [← hp]; exact bothSet_parse_amount _
  simp only [processRow] at he
  simp only [hp] at he
  by_cases hskip : w = none ∧ d = none
  · rw [if_pos hskip] at he
    exact absurd he (by simp)
  · rw [if_neg hskip] at he
    obtain rfl := Option.some.inj (PyResult.ok.inj he)
    cases w with
    | none =>
      cases d with
      | none => exact absurd ⟨rfl, rfl⟩ hskip
      | some a =>
        by_cases hz : a.num = 0 <;> simp [truthyAmt, isZeroAmt, hz]
    | some a =>
      cases d with
      | none =>
        by_cases hz : a.num = 0 <;> simp [truthyAmt, isZeroAmt, hz]
      | some b => simp [bothSet] at hshape

/-- C1 witness: the amended theorem applied to the "0" row, whose
classified deposit amount is zero and whose record has both fields
empty. -/
theorem C1_witness :
    (parse_amount (getCell [Cell.str "Withdrawal / Deposit"] [Cell.str "0"]
        (Cell.str "Withdrawal / Deposit") (Cell.str ""))
      = some ((none, some ⟨0, 0⟩) : Option Amount × Option Amount)) ∧
    (processRow [Cell.str "Withdrawal / Deposit"] [Cell.str "0"]
      = PyResult.ok (some { Date := "", Description := "", Withdrawal := none, Deposit := none,
                            Category := "", Notes := "" })) ∧
    ((({ Date := "", Description := "", Withdrawal := none, Deposit := none,
         Category := "", Notes := "" } : OutputTransaction).Withdrawal = none ∧
      ({ Date := "", Description := "", Withdrawal := none, Deposit := none,
         Category := "", Notes := "" } : OutputTransaction).Deposit = none) ↔
      (isZeroAmt none || isZeroAmt (some ⟨0, 0⟩)) = true) :=
  ⟨by decide, by decide,
    C1_both_empty_iff_zero [Cell.str "Withdrawal / Deposit"] [Cell.str "0"] _ none (some ⟨0, 0⟩)
      (by decide) (by decide)⟩

/-- C2: on unsigned numeric text with no classification keyword
(ASCII digits with at most one decimal point, such as "100.50"),
`parse_amount` returns withdrawal `none` and deposit the parsed
amount — the default-to-deposit fallback. -/
theorem C2_default_deposit (s : String) (a : Amount)
    (hnum : isNumericText s = true) (hp : parseDecimal s.toList = some a) :
    parse_amount (Cell.str s) = some (none, some a) := by
  have h3 := hnum
  simp only [isNumericText, Bool.and_eq_true] at h3
  obtain ⟨⟨hall0, hany0⟩, hdot⟩ := h3
  have hall := List.all_eq_true.mp hall0
  obtain ⟨cdig, hcmem, hcdig⟩ := List.any_eq_true.mp hany0
  have hne : s.toList ≠ [] := by
    intro h0; rw [h0] at hcmem; exact absurd hcmem (by simp)
  have hs : ¬(s = "") := by
    intro h0; rw [h0] at hne; exact hne rfl
  have hstrip : pyStripL s.toList = s.toList :=
    pyStripL_eq_self fun c hc => amtChar_not_space (hall c hc)
  have hcur : removeCurrency s.toList = s.toList :=
    removeCurrency_eq_self fun c hc => amtChar_not_currency (hall c hc)
  have hvalue : removeCurrency (pyStripL s.toList) = s.toList := by rw [hstrip, hcur]
  have hfr : firstRun s.toList = some s.toList := firstRun_all hne hall
  have hlow : lowerL s.toList = s.toList := lowerL_amtChar hall
  have hdr : containsSub ['d', 'r'] (lowerL s.toList) = false := by
    rw [hlow]; exact containsSub_false_of_head rfl hall (by decide)
  have hwd : containsSub kwWithdrawal (lowerL s.toList) = false := by
    rw [hlow]; exact containsSub_false_of_head rfl hall (by decide)
  have hcr : containsSub ['c', 'r'] (lowerL s.toList) = false := by
    rw [hlow]; exact containsSub_false_of_head rfl hall (by decide)
  have hdep : containsSub kwDeposit (lowerL s.toList) = false := by
    rw [hlow]; exact containsSub_false_of_head rfl hall (by decide)
  have hminus : startsWithChar '-' s.toList = false := startsWithChar_false hall (by decide)
  have hplus : startsWithChar '+' s.toList = false := startsWithChar_false hall (by decide)
  simp only [parse_amount, if_neg hs, hvalue, hfr, hp, hdr, hwd, hcr, hdep, hminus, hplus,
    Bool.or_self, Bool.or_false, Bool.false_or]
  simp

/-- C2 witness: "100.50" parses to the amount 100.5 and is classified
as a deposit. -/
theorem C2_witness :
    isNumericText "100.50" = true ∧
    parseDecimal ("100.50" : String).toList = some ⟨1005, 1⟩ ∧
    parse_amount (Cell.str "100.50") = some (none, some ⟨1005, 1⟩) :=
  ⟨by decide, by decide, C2_default_deposit "100.50" ⟨1005, 1⟩ (by decide) (by decide)⟩

/-- C3 amended: an ASCII input whose normalized text contains "cr"
(any case) and at least one digit, does not contain "dr" (any case,
which the code checks first), and does not start with "-", is
classified as a deposit with withdrawal `none` whenever `parse_amount`
returns (it raises when the matched digit run has two dots).  The
ASCII hypothesis scopes the statement to inputs on which the `[\d.]`
model of the regular expression coincides with Python's. -/
theorem C3_cr_deposit (s : String) (r : Option Amount × Option Amount)
    (hascii : s.toList.all (fun c => decide (c.toNat < 128)) = true)
    (hcr : containsSub ['c', 'r'] (lowerL (removeCurrency (pyStripL s.toList))) = true)
    (hdig : (removeCurrency (pyStripL s.toList)).any (fun c => c.isDigit) = true)
    (hdr : containsSub ['d', 'r'] (lowerL (removeCurrency (pyStripL s.toList))) = false)
    (hminus : startsWithChar '-' (removeCurrency (pyStripL s.toList)) = false)
    (hp : parse_amount (Cell.str s) = some r) :
    r.1 = none ∧ r.2.isSome = true := by
  have hs : ¬(s = "") := by
    intro h0
    subst h0
    exact absurd hcr (by decide)
  obtain ⟨cdig, hcmem, hcdig⟩ := List.any_eq_true.mp hdig
  obtain ⟨run, hfr⟩ := firstRun_isSome_of_digit hcmem hcdig
  have hwd : containsSub kwWithdrawal (lowerL (removeCurrency (pyStripL s.toList))) = false :=
    containsSub_kwWithdrawal_false hdr
  simp only [parse_amount, if_neg hs, hfr] at hp
  cases hpd : parseDecimal run with
  | none => rw [hpd] at hp; exact absurd hp (by simp)
  | some amount =>
    rw [hpd] at hp
    simp only [hdr, hwd, hminus, hcr, Bool.or_self, Bool.or_false, Bool.false_or,
      Bool.true_or, if_false, if_true] at hp
    rw [← Option.some.inj hp]
    exact ⟨rfl, rfl⟩

/-- C3 witness: "CR 5.00" satisfies the amended hypotheses and is
classified as a deposit of 5. -/
theorem C3_witness :
    (("CR 5.00" : String).toList.all (fun c => decide (c.toNat < 128)) = true) ∧
    containsSub ['c', 'r'] (lowerL (removeCurrency (pyStripL ("CR 5.00" : String).toList))) = true ∧
    (removeCurrency (pyStripL ("CR 5.00" : String).toList)).any (fun c => c.isDigit) = true ∧
    containsSub ['d', 'r'] (lowerL (removeCurrency (pyStripL ("CR 5.00" : String).toList))) = false ∧
    startsWithChar '-' (removeCurrency (pyStripL ("CR 5.00" : String).toList)) = false ∧
    parse_amount (Cell.str "CR 5.00") = some ((none, some ⟨5, 0⟩) : Option Amount × Option Amount) ∧
    (((none, some ⟨5, 0⟩) : Option Amount × Option Amount).1 = none ∧
      ((none, some ⟨5, 0⟩) : Option Amount × Option Amount).2.isSome = true) :=
  ⟨by decide, by decide, by decide, by decide, by decide, by decide,
    C3_cr_deposit "CR 5.00" (none, some ⟨5, 0⟩) (by decide) (by decide) (by decide)
      (by decide) (by decide) (by decide)⟩

/-- C4 amended: on an ASCII input containing no digits and no decimal
point, `parse_amount` returns `(none, none)` without raising, and a
row carrying that text in the "Withdrawal / Deposit" column is dropped
from the output of `clean_and_transform`.  The decimal-point exclusion
is forced by the counterexample "." (the regex matches the lone dot
and `float` raises); the ASCII hypothesis scopes the statement to
inputs on which the ASCII-digit model of `[\d.]` coincides with
Python's. -/
theorem C4_no_digit_no_dot (s : String)
    (hascii : s.toList.all (fun c => decide (c.toNat < 128)) = true)
    (h : s.toList.all (fun c => !c.isDigit && !(c == '.')) = true) :
    parse_amount (Cell.str s) = some (none, none) ∧
      clean_and_transform [[Cell.str "Withdrawal / Deposit"], [Cell.str s]]
        = PyResult.ok [] := by
  have hnoamt : ∀ c ∈ s.toList, isAmtChar c = false := by
    intro c hc
    have h12 := List.all_eq_true.mp h c hc
    simp only [Bool.and_eq_true] at h12
    obtain ⟨h1, h2⟩ := h12
    simp only [Bool.not_eq_true'] at h1 h2
    simp [isAmtChar, h1, h2]
  have hparse : parse_amount (Cell.str s) = some (none, none) := by
    by_cases hs : s = ""
    · subst hs; decide
    · have hfr : firstRun (removeCurrency (pyStripL s.toList)) = none :=
        firstRun_none fun c hc => hnoamt c (mem_of_value hc)
      simp only [parse_amount, if_neg hs, hfr]
  refine ⟨hparse, ?_⟩
  have hget : getCell [Cell.str "Withdrawal / Deposit"] [Cell.str s]
      (Cell.str "Withdrawal / Deposit") (Cell.str "") = Cell.str s := rfl
  have hrow : processRow [Cell.str "Withdrawal / Deposit"] [Cell.str s] = PyResult.ok none := by
    simp only [processRow, hget, hparse]
    simp
  simp only [clean_and_transform]
  simp only [List.any_cons, List.any_nil, List.length_cons, List.length_nil]
  norm_num
  simp only [List.filter, isNA, List.all_cons, List.all_nil, Bool.and_true, Bool.not_false]
  simp only [runRows, hrow]

/-- C4 witness: the amended theorem applied to the digit-free,
dot-free input "abc". -/
theorem C4_witness :
    (("abc" : String).toList.all (fun c => decide (c.toNat < 128)) = true) ∧
    (("abc" : String).toList.all (fun c => !c.isDigit && !(c == '.')) = true) ∧
    (parse_amount (Cell.str "abc") = some (none, none) ∧
      clean_and_transform [[Cell.str "Withdrawal / Deposit"], [Cell.str "abc"]]
        = PyResult.ok []) :=
  ⟨by decide, by decide, C4_no_digit_no_dot "abc" (by decide) (by decide)⟩

/-- C8 amended: for every emitted record, the Category field equals the
row's Channel cell stripped of leading and trailing whitespace (not the
verbatim cell).  Scoped to a present string cell and to header rows
that do not list "Channel" twice, where the column lookup of the model
coincides with pandas. -/
theorem C8_channel_stripped (headers row : List Cell) (t : OutputTransaction) (s : String)
    (hcnt : headers.count (Cell.str "Channel") ≤ 1)
    (hch : getCell headers row (Cell.str "Channel") (Cell.str "") = Cell.str s)
    (he : processRow headers row = PyResult.ok (some t)) :
    t.Category = stripStr s := by
  simp only [processRow] at he
  cases hpa : parse_amount (getCell headers row (Cell.str "Withdrawal / Deposit") (Cell.str "")) with
  | none =>
    rw [hpa] at he
    exact absurd he (by simp)
  | some wd =>
    obtain ⟨w, d⟩ := wd
    simp only [hpa] at he
    by_cases hskip : w = none ∧ d = none
    · rw [if_pos hskip] at he
      exact absurd he (by simp)
    · rw [if_neg hskip] at he
      obtain rfl := Option.some.inj (PyResult.ok.inj he)
      show stripStr (pyStr (getCell headers row (Cell.str "Channel") (Cell.str ""))) = stripStr s
      rw [hch]
      rfl

/-- C8 counterexample: a row whose Channel cell is " POS " yields
Category "POS", not the verbatim cell value, refuting the
character-for-character claim. -/
theorem C8_counterexample :
    clean_and_transform [[Cell.str "Withdrawal / Deposit", Cell.str "Channel"],
        [Cell.str "5", Cell.str " POS "]]
      = PyResult.ok [{ Date := "", Description := "", Withdrawal := none,
                       Deposit := some ⟨5, 0⟩, Category := "POS", Notes := "" }] ∧
    ("POS" : String) ≠ " POS " := ⟨by decide, by decide⟩

/-- C8 witness: the amended theorem applied to the " POS " row. -/
theorem C8_witness :
    ([Cell.str "Withdrawal / Deposit", Cell.str "Channel"].count (Cell.str "Channel") ≤ 1) ∧
    (getCell [Cell.str "Withdrawal / Deposit", Cell.str "Channel"]
        [Cell.str "5", Cell.str " POS "] (Cell.str "Channel") (Cell.str "")
      = Cell.str " POS ") ∧
    (processRow [Cell.str "Withdrawal / Deposit", Cell.str "Channel"]
        [Cell.str "5", Cell.str " POS "]
      = PyResult.ok (some { Date := "", Description := "", Withdrawal := none,
                            Deposit := some ⟨5, 0⟩, Category := "POS", Notes := "" })) ∧
    ({ Date := "", Description := "", Withdrawal := none, Deposit := some ⟨5, 0⟩,
       Category := "POS", Notes := "" } : OutputTransaction).Category = stripStr " POS " :=
  ⟨by decide, by decide, by decide,
    C8_channel_stripped [Cell.str "Withdrawal / Deposit", Cell.str "Channel"]
      [Cell.str "5", Cell.str " POS "] _ " POS " (by decide) (by decide) (by decide)⟩

end PDFConvert
